import Mathlib

set_option maxHeartbeats 1000000

namespace Fly

/-- Terraform framework string value (hashicorp types.String): null, unknown,
or a concrete string.  `valueString`, `isNull`, `isUnknown` and equality mirror
the framework's `ValueString`, `IsNull`, `IsUnknown` and `Equal`. -/
inductive TStr where
  | null
  | unknown
  | val (s : String)
deriving DecidableEq, Repr

/-- Mirrors types.String.ValueString: the concrete string, or "" for null/unknown. -/
def TStr.valueString : TStr → String
  | .val s => s
  | _ => ""

/-- Mirrors types.String.IsNull. -/
def TStr.isNull : TStr → Bool
  | .null => true
  | _ => false

/-- Mirrors types.String.IsUnknown. -/
def TStr.isUnknown : TStr → Bool
  | .unknown => true
  | _ => false

/-- One entry of the `secrets` attribute of the fly_app resource
(src/unnamed/part_003, type appSecret): user value, remote digest,
remote creation timestamp (stored RFC3339-formatted). -/
structure appSecret where
  value : TStr
  digest : TStr
  createdAt : TStr
deriving DecidableEq, Repr

/-- A Go `map[string]appSecret` (type secretMap in part_003), embedded as an
association list; the Go map's unordered iteration is fixed to list order. -/
abbrev SMap := List (String × appSecret)

/-- Go map read `m[k]` returning `(value, ok)`: the first binding of `k`. -/
def sfind (m : SMap) (k : String) : Option appSecret :=
  (m.find? (fun p => p.1 == k)).map (fun p => p.2)

/-- Go map membership test `_, ok := m[k]`. -/
def scontains (m : SMap) (k : String) : Bool :=
  (sfind m k).isSome

/-- Go `delete(m, k)`. -/
def serase (m : SMap) (k : String) : SMap :=
  m.filter (fun p => !(p.1 == k))

/-- Go map write `m[k] = v`: afterwards `k` is bound to `v` and every other
key keeps its binding.  Go maps are unordered, so the position of the new
binding in the association list is immaterial; it is placed at the head. -/
def sinsert (m : SMap) (k : String) (v : appSecret) : SMap :=
  (k, v) :: serase m k

/-- One secret as returned by the remote API (graphql secret fragment):
name, digest, createdAt (already RFC3339-formatted). -/
structure ApiSecret where
  name : String
  digest : String
  createdAt : String
deriving DecidableEq, Repr

/-- One entry of a gqlerror.List: message plus the machine-readable
`extensions["code"]` field. -/
structure GqlError where
  message : String
  code : String
deriving DecidableEq, Repr

/-- A remote-call error: either a structured gqlerror.List (the case
`errors.As(err, &errList)` succeeds on) or any other error. -/
inductive RemoteErr where
  | gql (errs : List GqlError)
  | other (msg : String)
deriving DecidableEq, Repr

/-- Decides whether `needle` occurs as a contiguous sublist of the second list. -/
def hasSubList (needle : List Char) : List Char → Bool
  | [] => needle.isEmpty
  | c :: rest => needle.isPrefixOf (c :: rest) || hasSubList needle rest

/-- Mirrors Go strings.Contains s pat. -/
def strContains (s pat : String) : Bool :=
  hasSubList pat.toList s.toList

/-- The no-op detection of setSecrets (part_003 line 368):
`errors.As(err, &errList) && len(errList) == 1 &&
strings.Contains(errList[0].Message, "No change detected")`. -/
def isNoopErr : RemoteErr → Bool
  | .gql [e] => strContains e.message "No change detected"
  | _ => false

/-- A mutating or reading remote call issued during reconciliation. -/
inductive MutCall where
  | unset (keys : List String)
  | set (inputs : List (String × String))
  | get
deriving DecidableEq, Repr

/-- A diagnostic added to resp.Diagnostics: fatal error or warning. -/
inductive Diag where
  | err (summary : String)
  | warn (summary : String)
deriving DecidableEq, Repr

/-- An observable event of a lifecycle operation, in emission order:
a diagnostic or a remote call. -/
inductive Ev where
  | diag (d : Diag)
  | call (c : MutCall)
deriving DecidableEq, Repr

/-- The event is a fatal error diagnostic. -/
def Ev.isErr : Ev → Bool
  | .diag (.err _) => true
  | _ => false

/-- The event is a remote call. -/
def Ev.isCall : Ev → Bool
  | .call _ => true
  | _ => false

/-- Mirrors resp.Diagnostics.HasError() over the event trace so far. -/
def hasError (t : List Ev) : Bool := t.any Ev.isErr

/-- The remote store's responses to the calls an operation may issue:
UnsetSecrets, SetSecrets, and GetSecrets results. -/
structure Remote where
  unsetResult : Except RemoteErr Unit
  setResult : Except RemoteErr (List ApiSecret)
  getResult : Except RemoteErr (List ApiSecret)

/-- The response-application loop shared by setSecrets (part_003 lines 380-389)
and getSecretComputedValues (lines 397-405): for each returned secret whose
name is a requested key, overwrite digest/createdAt keeping the stored value. -/
def applyDigests (m : SMap) (resp : List ApiSecret) : SMap :=
  resp.foldl (fun acc as =>
    match sfind acc as.name with
    | some old => sinsert acc as.name ⟨old.value, .val as.digest, .val as.createdAt⟩
    | none => acc) m

/-- flyAppResource.getSecretComputedValues (part_003 lines 392-406): fetch the
full secret list; on failure record a fatal error (and apply nothing); on
success populate digest/createdAt for requested names. -/
def getSecretComputedValues (secrets : SMap) (r : Remote) : SMap × List Ev :=
  match r.getResult with
  | .error _ => (secrets, [Ev.call .get, Ev.diag (.err "GetSecrets failed")])
  | .ok apiSecrets => (applyDigests secrets apiSecrets, [Ev.call .get])

/-- The batch payload built from the requested map (part_003 lines 351-359):
one (key, plaintext value) input per entry. -/
def setInputs (secrets : SMap) : List (String × String) :=
  secrets.map (fun p => (p.1, p.2.value.valueString))

/-- flyAppResource.setSecrets (part_003 lines 350-390): one SetSecrets batch
call; on the single-error "No change detected" outcome, two warnings and a
compensating GetSecrets; on any other error a fatal diagnostic; on success,
apply returned digests by name. Returns the updated requested map and events. -/
def setSecrets (secrets : SMap) (r : Remote) : SMap × List Ev :=
  match r.setResult with
  | .error e =>
    if isNoopErr e then
      let g := getSecretComputedValues secrets r
      (g.1, Ev.call (.set (setInputs secrets)) :: Ev.diag (.warn "SetSecrets was no-op") ::
        Ev.diag (.warn "State may have drifted") :: g.2)
    else
      (secrets, [Ev.call (.set (setInputs secrets)), Ev.diag (.err "SetSecrets errored")])
  | .ok respSecrets =>
    (applyDigests secrets respSecrets, [Ev.call (.set (setInputs secrets))])

/-- The fly_app resource data relevant to Update: name, org, secrets map
(flyAppResourceData, part_003 lines 48-55, other fields omitted as Update
never branches on them). -/
structure AppData where
  name : TStr
  org : TStr
  secrets : SMap
deriving DecidableEq, Repr

/-- The org immutability guard condition of Update (part_003 line 274). -/
def orgChanged (plan state : AppData) : Bool :=
  !plan.org.isUnknown && !(plan.org.valueString == state.org.valueString)

/-- The name immutability guard condition of Update (part_003 line 277). -/
def nameChanged (plan state : AppData) : Bool :=
  !plan.name.isNull && !(plan.name.valueString == state.name.valueString)

/-- The diagnostics added by Update's immutable-field guard, before any
remote interaction (part_003 lines 274-279). -/
def guardDiags (plan state : AppData) : List Ev :=
  (if orgChanged plan state then [Ev.diag (.err "Cannot mutate org of existing app")] else []) ++
  (if nameChanged plan state then [Ev.diag (.err "Cannot mutate Name of existing app")] else [])

/-- The toAdd component of the Differ: keys declared in plan that are absent
from observed state (the `!ok` half of the newSecrets condition, part_003
line 304). -/
def toAdd (plan st : SMap) : List String :=
  (plan.filter (fun p => !scontains st p.1)).map (fun p => p.1)

/-- The toChange component of the Differ: keys in both maps whose declared
value differs from the tracked last-declared value (the `!s.Value.Equal(ps.Value)`
half of the newSecrets condition, part_003 line 304). -/
def toChange (plan st : SMap) : List String :=
  (plan.filter (fun p =>
    match sfind st p.1 with
    | some s => !(s.value == p.2.value)
    | none => false)).map (fun p => p.1)

/-- The toRemove component of the Differ: keys in observed state absent from
plan (the removedSecrets loop, part_003 lines 282-288). -/
def toRemove (plan st : SMap) : List String :=
  (st.filter (fun p => !scontains plan p.1)).map (fun p => p.1)

/-- removedSecrets of Update (part_003 lines 282-288): keys in state absent
from plan. -/
def removedKeys (plan state : AppData) : List String :=
  toRemove plan.secrets state.secrets

/-- The state secrets after Update's removal loop deleted every key absent
from plan (part_003 line 286). -/
def keptSecrets (plan state : AppData) : SMap :=
  state.secrets.filter (fun p => scontains plan.secrets p.1)

/-- Events of Update's unset phase (part_003 lines 289-299): one UnsetSecrets
batch when any key was removed, plus its error diagnostic on failure. -/
def unsetEvs (plan state : AppData) (r : Remote) : List Ev :=
  if (removedKeys plan state).isEmpty then []
  else
    Ev.call (.unset (removedKeys plan state)) ::
      (match r.unsetResult with
       | .error _ => [Ev.diag (.err "UnsetSecrets failed")]
       | .ok _ => [])

/-- Update returns early after the unset phase when the removal branch ran and
diagnostics hold an error (part_003 lines 296-298). -/
def updateAborted (plan state : AppData) (r : Remote) : Bool :=
  !(removedKeys plan state).isEmpty &&
    hasError (guardDiags plan state ++ unsetEvs plan state r)

/-- newSecrets of Update (part_003 lines 302-307): plan entries that are new
or whose declared value differs from the tracked last-declared value. -/
def newSecrets (plan : SMap) (st : SMap) : SMap :=
  plan.filter (fun p =>
    match sfind st p.1 with
    | none => true
    | some s => !(s.value == p.2.value))

/-- Events of Update after the guard diagnostics: unset phase, then (unless
aborted) the set phase for a nonempty newSecrets batch (part_003 lines 281-318). -/
def restEvents (plan state : AppData) (r : Remote) : List Ev :=
  if updateAborted plan state r then unsetEvs plan state r
  else
    unsetEvs plan state r ++
      (if (newSecrets plan.secrets (keptSecrets plan state)).isEmpty then []
       else (setSecrets (newSecrets plan.secrets (keptSecrets plan state)) r).2)

/-- The final resource data of Update: state with removed keys deleted and,
when the set phase ran, the (digest-updated) newSecrets entries written back
(part_003 lines 308-316). -/
def updateData (plan state : AppData) (r : Remote) : AppData :=
  if updateAborted plan state r then { state with secrets := keptSecrets plan state }
  else
    let ns := newSecrets plan.secrets (keptSecrets plan state)
    if ns.isEmpty then { state with secrets := keptSecrets plan state }
    else
      { state with secrets :=
          ((setSecrets ns r).1).foldl (fun m p => sinsert m p.1 p.2) (keptSecrets plan state) }

/-- flyAppResource.Update (part_003 lines 258-319): guard diagnostics, removal
loop + unset batch, newSecrets computation + set batch, final data. -/
def update (plan state : AppData) (r : Remote) : AppData × List Ev :=
  (updateData plan state r, guardDiags plan state ++ restEvents plan state r)

/-- flyAppResourceData.updateSecretFromApi (part_003 lines 86-103): fold one
remote snapshot entry for one managed key into observed state.  The Go zero
value `d.Secrets[name]` for a missing key is the all-null appSecret. -/
def updateSecretFromApi (d : SMap) (name : String) (remoteSecrets : List ApiSecret) : SMap :=
  let s := (sfind d name).getD ⟨.null, .null, .null⟩
  match remoteSecrets.find? (fun as => as.name == name) with
  | none => serase d name
  | some as =>
    if !(as.digest == s.digest.valueString) || !(as.createdAt == s.createdAt.valueString) then
      sinsert d name ⟨.unknown, .val as.digest, .val as.createdAt⟩
    else d

/-- The input of a string plan modifier: the attribute's own prior state and
config values, plus the correlated sibling "value" attribute's state and
config values that secretValueUnchanged reads (part_003 lines 110-117). -/
structure StringRequest where
  stateValue : TStr
  configValue : TStr
  corrStateValue : TStr
  corrConfigValue : TStr
deriving DecidableEq, Repr

/-- secretValueUnchanged (part_003 lines 110-117): the correlated "value"
attribute's state equals its config, by types.String.Equal. -/
def secretValueUnchanged (req : StringRequest) : Bool :=
  req.corrStateValue == req.corrConfigValue

/-- useStateForUnknownIfModifier.PlanModifyString
(src/internal/provider/modifiers/use_state_if.go lines 25-51): keep the
planned value unless prior state exists, the plan is unknown, the config is
not unknown, and the condition holds; then pin to the prior state value. -/
def planModifyString (cond : StringRequest → Bool) (req : StringRequest) (planValue : TStr) : TStr :=
  if req.stateValue.isNull then planValue
  else if !planValue.isUnknown then planValue
  else if req.configValue.isUnknown then planValue
  else if cond req then req.stateValue
  else planValue

/-- The mutation batches (unset and set calls, in order) appearing in an
event trace; GetSecrets reads are not mutations and are dropped. -/
def mutCalls (t : List Ev) : List MutCall :=
  t.filterMap (fun e =>
    match e with
    | .call (.unset ks) => some (.unset ks)
    | .call (.set ins) => some (.set ins)
    | _ => none)

/-- The not-found classification of appSecretResource.Read
(src/internal/provider/app_secret_resource.go line 147):
`len(errList) == 1 && errList[1].Extensions["code"] == "NOT_FOUND"`.
Indexing is embedded as a total lookup; `none` marks the evaluation the Go
program cannot perform (index out of range panic). -/
def readNotFoundCheck (errList : List GqlError) : Option Bool :=
  if errList.length == 1 then
    match errList[1]? with
    | some e => some (e.code == "NOT_FOUND")
    | none => none
  else some false

theorem sfind_eq_none_iff {m : SMap} {k : String} :
    sfind m k = none ↔ ∀ p ∈ m, p.1 ≠ k := by
  simp [sfind, List.find?_eq_none]

theorem scontains_false_iff {m : SMap} {k : String} :
    scontains m k = false ↔ sfind m k = none := by
  cases h : sfind m k <;> simp [scontains, h]

theorem scontains_true_iff {m : SMap} {k : String} :
    scontains m k = true ↔ ∃ v, sfind m k = some v := by
  cases h : sfind m k <;> simp [scontains, h]

theorem sfind_filter_none {m : SMap} {k : String} {f : String × appSecret → Bool}
    (hm : sfind m k = none) : sfind (m.filter f) k = none := by
  rw [sfind_eq_none_iff] at hm ⊢
  exact fun p hp => hm p (List.mem_filter.mp hp).1

theorem sfind_serase_self {m : SMap} {k : String} : sfind (serase m k) k = none := by
  rw [sfind_eq_none_iff]
  intro p hp
  have := (List.mem_filter.mp hp).2
  simpa using this

theorem sfind_cons_of_pos {p : String × appSecret} {t : SMap} {k : String} (h : p.1 = k) :
    sfind (p :: t) k = some p.2 := by
  simp [sfind, List.find?_cons_of_pos, h]

theorem sfind_cons_of_neg {p : String × appSecret} {t : SMap} {k : String} (h : p.1 ≠ k) :
    sfind (p :: t) k = sfind t k := by
  simp only [sfind]
  rw [List.find?_cons_of_neg _ (by simp [h])]

theorem serase_cons_of_pos {p : String × appSecret} {t : SMap} {k : String} (h : p.1 = k) :
    serase (p :: t) k = serase t k := by
  simp [serase, h]

theorem serase_cons_of_neg {p : String × appSecret} {t : SMap} {k : String} (h : p.1 ≠ k) :
    serase (p :: t) k = p :: serase t k := by
  simp [serase, h]

theorem sfind_serase_ne {m : SMap} {k k' : String} (h : k' ≠ k) :
    sfind (serase m k) k' = sfind m k' := by
  induction m with
  | nil => rfl
  | cons p t ih =>
    by_cases hp : p.1 = k
    · rw [serase_cons_of_pos hp, ih, sfind_cons_of_neg (by rw [hp]; exact Ne.symm h)]
    · by_cases hq : p.1 = k'
      · rw [serase_cons_of_neg hp, sfind_cons_of_pos hq, sfind_cons_of_pos hq]
      · rw [serase_cons_of_neg hp, sfind_cons_of_neg hq, sfind_cons_of_neg hq, ih]

theorem sfind_insert_self {m : SMap} {k : String} {v : appSecret} :
    sfind (sinsert m k v) k = some v := by
  simp [sinsert, sfind, List.find?_cons_of_pos]

theorem sfind_insert_ne {m : SMap} {k k' : String} {v : appSecret} (h : k' ≠ k) :
    sfind (sinsert m k v) k' = sfind m k' := by
  have : sfind ((k, v) :: serase m k) k' = sfind (serase m k) k' := by
    simp [sfind, List.find?_cons_of_neg, Ne.symm h]
  rw [sinsert, this, sfind_serase_ne h]

theorem sfind_of_mem_nodup {m : SMap} {p : String × appSecret}
    (hnd : (m.map (fun q => q.1)).Nodup) (hp : p ∈ m) : sfind m p.1 = some p.2 := by
  induction m with
  | nil => cases hp
  | cons q t ih =>
    rcases List.mem_cons.mp hp with h | h
    · subst h
      simp [sfind, List.find?_cons_of_pos]
    · have hq : q.1 ≠ p.1 := by
        intro he
        have : q.1 ∈ t.map (fun r => r.1) := he ▸ List.mem_map_of_mem _ h
        exact (List.nodup_cons.mp hnd).1 this
      have := ih (List.nodup_cons.mp hnd).2 h
      simpa [sfind, List.find?_cons_of_neg, hq] using this

theorem applyDigests_nil (m : SMap) : applyDigests m [] = m := rfl

theorem applyDigests_cons (m : SMap) (as : ApiSecret) (rest : List ApiSecret) :
    applyDigests m (as :: rest) =
      applyDigests
        (match sfind m as.name with
         | some old => sinsert m as.name ⟨old.value, TStr.val as.digest, TStr.val as.createdAt⟩
         | none => m) rest := rfl

theorem applyDigests_cons_none {m : SMap} {as : ApiSecret} {rest : List ApiSecret}
    (hn : sfind m as.name = none) :
    applyDigests m (as :: rest) = applyDigests m rest := by
  rw [applyDigests_cons, hn]

theorem applyDigests_cons_some {m : SMap} {as : ApiSecret} {rest : List ApiSecret}
    {old : appSecret} (hn : sfind m as.name = some old) :
    applyDigests m (as :: rest) =
      applyDigests (sinsert m as.name ⟨old.value, TStr.val as.digest, TStr.val as.createdAt⟩)
        rest := by
  rw [applyDigests_cons, hn]

theorem applyDigests_none {resp : List ApiSecret} {m : SMap} {k : String}
    (hm : sfind m k = none) : sfind (applyDigests m resp) k = none := by
  induction resp generalizing m with
  | nil => exact hm
  | cons as rest ih =>
    cases h : sfind m as.name with
    | none => rw [applyDigests_cons_none h]; exact ih hm
    | some old =>
      have hne : k ≠ as.name := by
        intro he; rw [he, h] at hm; cases hm
      rw [applyDigests_cons_some h]
      exact ih ((sfind_insert_ne hne).trans hm)

theorem applyDigests_value {resp : List ApiSecret} {m : SMap} {k : String} {old : appSecret}
    (h : sfind m k = some old) :
    ∃ v, sfind (applyDigests m resp) k = some v ∧ v.value = old.value := by
  induction resp generalizing m old with
  | nil => exact ⟨old, h, rfl⟩
  | cons as rest ih =>
    cases hn : sfind m as.name with
    | none => rw [applyDigests_cons_none hn]; exact ih h
    | some o =>
      rw [applyDigests_cons_some hn]
      by_cases he : k = as.name
      · subst he
        rw [h] at hn
        cases hn
        obtain ⟨v, hv, hveq⟩ :=
          ih (sfind_insert_self (v := ⟨old.value, TStr.val as.digest, TStr.val as.createdAt⟩))
        exact ⟨v, hv, hveq⟩
      · exact ih ((sfind_insert_ne he).trans h)

theorem applyDigests_not_named {resp : List ApiSecret} {m : SMap} {k : String}
    (h : ∀ as ∈ resp, as.name ≠ k) : sfind (applyDigests m resp) k = sfind m k := by
  induction resp generalizing m with
  | nil => rfl
  | cons as rest ih =>
    have hk : as.name ≠ k := h as (List.mem_cons_self _ _)
    have hrest : ∀ a ∈ rest, a.name ≠ k := fun a ha => h a (List.mem_cons_of_mem _ ha)
    cases hn : sfind m as.name with
    | none => rw [applyDigests_cons_none hn]; exact ih hrest
    | some o =>
      rw [applyDigests_cons_some hn]
      exact (ih hrest).trans (sfind_insert_ne (Ne.symm hk))

theorem applyDigests_find_nodup {resp : List ApiSecret} {m : SMap} {k : String}
    (hnd : (resp.map (fun as => as.name)).Nodup) :
    sfind (applyDigests m resp) k =
      match resp.find? (fun as => as.name == k) with
      | none => sfind m k
      | some as => (sfind m k).map
          (fun old => ⟨old.value, TStr.val as.digest, TStr.val as.createdAt⟩) := by
  induction resp generalizing m with
  | nil => rfl
  | cons as rest ih =>
    have hnd' : (rest.map (fun a => a.name)).Nodup := (List.nodup_cons.mp hnd).2
    have hout : as.name ∉ rest.map (fun a => a.name) := (List.nodup_cons.mp hnd).1
    rw [applyDigests_cons]
    by_cases he : as.name = k
    · subst he
      have hnr : ∀ a ∈ rest, a.name ≠ as.name := by
        intro a ha hb
        exact hout (hb ▸ List.mem_map_of_mem (fun r => r.name) ha)
      rw [List.find?_cons_of_pos _ (by simp)]
      cases hn : sfind m as.name with
      | none =>
        have hafter : sfind (applyDigests m rest) as.name = sfind m as.name :=
          applyDigests_not_named hnr
        simp [hafter, hn]
      | some old =>
        have hafter := applyDigests_not_named
          (m := sinsert m as.name ⟨old.value, TStr.val as.digest, TStr.val as.createdAt⟩) hnr
        simp [hafter, sfind_insert_self, hn]
    · rw [List.find?_cons_of_neg _ (by simp [he])]
      cases hn : sfind m as.name with
      | none => exact ih hnd'
      | some old =>
        have hins : sfind (sinsert m as.name
            ⟨old.value, TStr.val as.digest, TStr.val as.createdAt⟩) k = sfind m k :=
          sfind_insert_ne (fun hk => he hk.symm)
        have hrec := ih (m := sinsert m as.name
          ⟨old.value, TStr.val as.digest, TStr.val as.createdAt⟩) hnd'
        rw [hins] at hrec
        exact hrec

theorem sfind_foldl_insert_none {l : List (String × appSecret)} {m : SMap} {k : String}
    (hl : ∀ p ∈ l, p.1 ≠ k) (hm : sfind m k = none) :
    sfind (l.foldl (fun acc p => sinsert acc p.1 p.2) m) k = none := by
  induction l generalizing m with
  | nil => exact hm
  | cons p t ih =>
    rw [List.foldl_cons]
    exact ih (fun q hq => hl q (List.mem_cons_of_mem _ hq))
      (by rw [sfind_insert_ne (Ne.symm (hl p (List.mem_cons_self _ _)))]; exact hm)

theorem mem_keys_iff (m : SMap) (k : String) :
    k ∈ m.map (fun p => p.1) ↔ scontains m k = true := by
  constructor
  · intro h
    obtain ⟨p, hp, rfl⟩ := List.mem_map.mp h
    rw [scontains_true_iff]
    cases hf : List.find? (fun q => q.1 == p.1) m with
    | none =>
      exact absurd (by simp : (p.1 == p.1) = true)
        (by simpa using List.find?_eq_none.mp hf p hp)
    | some q => exact ⟨q.2, by simp [sfind, hf]⟩
  · intro h
    obtain ⟨v, hv⟩ := scontains_true_iff.mp h
    rw [sfind] at hv
    obtain ⟨q, hfq, hq2⟩ := Option.map_eq_some'.mp hv
    exact List.mem_map.mpr ⟨q, List.mem_of_find?_eq_some hfq, by simpa using List.find?_some hfq⟩

theorem keys_filter_subset (m : SMap) (f : String × appSecret → Bool) (k : String)
    (h : k ∈ (m.filter f).map (fun p => p.1)) : scontains m k = true := by
  obtain ⟨p, hp, rfl⟩ := List.mem_map.mp h
  exact (mem_keys_iff m p.1).mp (List.mem_map_of_mem _ (List.mem_filter.mp hp).1)

theorem mem_toAdd_iff (plan st : SMap) (k : String) :
    k ∈ toAdd plan st ↔ scontains plan k = true ∧ scontains st k = false := by
  simp only [toAdd, List.mem_map, List.mem_filter]
  constructor
  · rintro ⟨p, ⟨hmem, hnc⟩, rfl⟩
    exact ⟨(mem_keys_iff plan p.1).mp (List.mem_map_of_mem _ hmem), by simpa using hnc⟩
  · rintro ⟨hc, hnc⟩
    obtain ⟨p, hmem, hpk⟩ := List.mem_map.mp ((mem_keys_iff plan k).mpr hc)
    exact ⟨p, ⟨hmem, by rw [hpk]; simp [hnc]⟩, hpk⟩

theorem toRemove_eq_toAdd (plan st : SMap) : toRemove plan st = toAdd st plan := rfl

theorem mem_toRemove_iff (plan st : SMap) (k : String) :
    k ∈ toRemove plan st ↔ scontains st k = true ∧ scontains plan k = false := by
  rw [toRemove_eq_toAdd]
  exact mem_toAdd_iff st plan k

theorem mem_toChange_iff (plan st : SMap) (k : String) :
    k ∈ toChange plan st ↔
      ∃ p ∈ plan, p.1 = k ∧ ∃ s, sfind st k = some s ∧ (s.value == p.2.value) = false := by
  simp only [toChange, List.mem_map, List.mem_filter]
  constructor
  · rintro ⟨p, ⟨hmem, hpred⟩, rfl⟩
    refine ⟨p, hmem, rfl, ?_⟩
    cases hf : sfind st p.1 with
    | none => rw [hf] at hpred; cases hpred
    | some s =>
      rw [hf] at hpred
      exact ⟨s, rfl, by simpa using hpred⟩
  · rintro ⟨p, hmem, rfl, s, hf, hne⟩
    exact ⟨p, ⟨hmem, by rw [hf]; simpa using hne⟩, rfl⟩

theorem mem_newSecrets_keys_iff (plan st : SMap) (k : String) :
    k ∈ (newSecrets plan st).map (fun p => p.1) ↔
      k ∈ toAdd plan st ∨ k ∈ toChange plan st := by
  simp only [newSecrets, mem_toAdd_iff, mem_toChange_iff, List.mem_map, List.mem_filter]
  constructor
  · rintro ⟨p, ⟨hmem, hpred⟩, rfl⟩
    cases hf : sfind st p.1 with
    | none =>
      refine Or.inl ⟨(mem_keys_iff plan p.1).mp (List.mem_map_of_mem _ hmem), ?_⟩
      rw [scontains_false_iff]
      exact hf
    | some s =>
      rw [hf] at hpred
      exact Or.inr ⟨p, hmem, rfl, s, rfl, by simpa using hpred⟩
  · rintro (⟨hc, hnc⟩ | ⟨p, hmem, rfl, s, hf, hne⟩)
    · obtain ⟨p, hmem, hpk⟩ := List.mem_map.mp ((mem_keys_iff plan k).mpr hc)
      refine ⟨p, ⟨hmem, ?_⟩, hpk⟩
      rw [hpk]
      rw [scontains_false_iff] at hnc
      rw [hnc]
    · exact ⟨p, ⟨hmem, by rw [hf]; simpa using hne⟩, rfl⟩

theorem find?_name_of_mem_nodup (resp : List ApiSecret) (as : ApiSecret)
    (hnd : (resp.map (fun a => a.name)).Nodup) (hmem : as ∈ resp) :
    resp.find? (fun a => a.name == as.name) = some as := by
  induction resp with
  | nil => cases hmem
  | cons b rest ih =>
    rcases List.mem_cons.mp hmem with h | h
    · subst h
      exact List.find?_cons_of_pos _ (by simp)
    · have hnb : b.name ≠ as.name := by
        intro he
        have hb : b.name ∈ List.map (fun a => a.name) rest := by
          rw [he]
          exact List.mem_map_of_mem _ h
        exact (List.nodup_cons.mp hnd).1 hb
      rw [List.find?_cons_of_neg _ (by simp [hnb])]
      exact ih (List.nodup_cons.mp hnd).2 h

theorem setInputs_keys (m : SMap) :
    (setInputs m).map (fun q => q.1) = m.map (fun p => p.1) := by
  simp [setInputs, List.map_map, Function.comp]

theorem setSecrets_absent (secrets : SMap) (r : Remote) (k : String)
    (h : sfind secrets k = none) : sfind ((setSecrets secrets r).1) k = none := by
  cases hs : r.setResult with
  | error e =>
    by_cases hn : isNoopErr e
    · cases hg : r.getResult with
      | error e' => simp [setSecrets, hs, hn, getSecretComputedValues, hg, h]
      | ok fetched =>
        simp only [setSecrets, hs, hn, getSecretComputedValues, hg, if_true]
        exact applyDigests_none h
    · simp [setSecrets, hs, hn, h]
  | ok resp =>
    simp only [setSecrets, hs]
    exact applyDigests_none h

theorem setSecrets_no_unset (secrets : SMap) (r : Remote) (ks : List String) :
    Ev.call (MutCall.unset ks) ∉ (setSecrets secrets r).2 := by
  cases hs : r.setResult with
  | error e =>
    by_cases hn : isNoopErr e
    · cases hg : r.getResult with
      | error e' => simp [setSecrets, hs, hn, getSecretComputedValues, hg]
      | ok fetched => simp [setSecrets, hs, hn, getSecretComputedValues, hg]
    · simp [setSecrets, hs, hn]
  | ok resp => simp [setSecrets, hs]

theorem setSecrets_set_inputs (secrets : SMap) (r : Remote) (ins : List (String × String))
    (h : Ev.call (MutCall.set ins) ∈ (setSecrets secrets r).2) : ins = setInputs secrets := by
  cases hs : r.setResult with
  | error e =>
    by_cases hn : isNoopErr e
    · cases hg : r.getResult with
      | error e' =>
        simp only [setSecrets, hs, hn, getSecretComputedValues, hg, if_true] at h
        simpa using h
      | ok fetched =>
        simp only [setSecrets, hs, hn, getSecretComputedValues, hg, if_true] at h
        simpa using h
    · simp only [setSecrets, hs] at h
      rw [if_neg hn] at h
      simpa using h
  | ok resp =>
    simp only [setSecrets, hs] at h
    simpa using h

theorem setSecrets_mutCalls (secrets : SMap) (r : Remote) :
    mutCalls (setSecrets secrets r).2 = [MutCall.set (setInputs secrets)] := by
  cases hs : r.setResult with
  | error e =>
    by_cases hn : isNoopErr e
    · cases hg : r.getResult with
      | error e' => simp [setSecrets, hs, hn, getSecretComputedValues, hg, mutCalls]
      | ok fetched => simp [setSecrets, hs, hn, getSecretComputedValues, hg, mutCalls]
    · simp [setSecrets, hs, hn, mutCalls]
  | ok resp => simp [setSecrets, hs, mutCalls]

theorem guardDiags_no_call (plan state : AppData) :
    ∀ e ∈ guardDiags plan state, Ev.isCall e = false := by
  intro e he
  rw [guardDiags] at he
  rcases List.mem_append.mp he with h | h
  · by_cases ho : orgChanged plan state = true
    · rw [if_pos ho] at h
      simp at h
      simp [h, Ev.isCall]
    · rw [if_neg ho] at h
      cases h
  · by_cases hn : nameChanged plan state = true
    · rw [if_pos hn] at h
      simp at h
      simp [h, Ev.isCall]
    · rw [if_neg hn] at h
      cases h

theorem guardDiags_mutCalls (plan state : AppData) :
    mutCalls (guardDiags plan state) = [] := by
  rw [guardDiags]
  by_cases ho : orgChanged plan state = true <;> by_cases hn : nameChanged plan state = true <;>
    simp [ho, hn, mutCalls]

theorem unsetEvs_unset_batch (plan state : AppData) (r : Remote) (ks : List String)
    (h : Ev.call (MutCall.unset ks) ∈ unsetEvs plan state r) : ks = removedKeys plan state := by
  rw [unsetEvs] at h
  by_cases he : (removedKeys plan state).isEmpty
  · rw [if_pos he] at h; cases h
  · rw [if_neg he] at h
    cases hu : r.unsetResult with
    | error e => rw [hu] at h; simpa using h
    | ok u => rw [hu] at h; simpa using h

theorem unsetEvs_no_set (plan state : AppData) (r : Remote) (ins : List (String × String)) :
    Ev.call (MutCall.set ins) ∉ unsetEvs plan state r := by
  rw [unsetEvs]
  by_cases he : (removedKeys plan state).isEmpty
  · simp [he]
  · cases hu : r.unsetResult with
    | error e => simp [he, hu]
    | ok u => simp [he, hu]

theorem unsetEvs_mutCalls (plan state : AppData) (r : Remote) :
    mutCalls (unsetEvs plan state r) =
      if (removedKeys plan state).isEmpty then []
      else [MutCall.unset (removedKeys plan state)] := by
  rw [unsetEvs]
  by_cases he : (removedKeys plan state).isEmpty
  · simp [he, mutCalls]
  · cases hu : r.unsetResult with
    | error e => simp [he, hu, mutCalls]
    | ok u => simp [he, hu, mutCalls]

theorem update_trace_eq (plan state : AppData) (r : Remote) :
    (update plan state r).2 =
      guardDiags plan state ++ unsetEvs plan state r ++
        (if updateAborted plan state r then []
         else if (newSecrets plan.secrets (keptSecrets plan state)).isEmpty then []
         else (setSecrets (newSecrets plan.secrets (keptSecrets plan state)) r).2) := by
  rw [update]
  show guardDiags plan state ++ restEvents plan state r = _
  rw [restEvents]
  by_cases ha : updateAborted plan state r
  · simp [ha, List.append_assoc]
  · by_cases hn : (newSecrets plan.secrets (keptSecrets plan state)).isEmpty <;>
      simp [ha, hn, List.append_assoc]

/-- C10: in the standalone app-secret resource's Read, when the refresh fails
with a GraphQL error list of length exactly 1, the not-found classification
indexes element 1 of that one-element list; for every such single-error
response this index is out of bounds (valid index is 0 only), so the check
has no value to evaluate to — the embedded evaluation is `none` (the Go
program panics) — rather than selecting the remove-resource branch or the
report-error branch. -/
theorem c10_read_notfound_index_oob (errList : List GqlError)
    (h : errList.length = 1) : readNotFoundCheck errList = none := by
  rw [readNotFoundCheck]
  have hget : errList[1]? = none := by
    rw [List.getElem?_eq_none_iff]
    omega
  simp [h, hget]

/-- Witness for C10 at a concrete single-error response. -/
theorem c10_read_notfound_index_oob_witness :
    ([⟨"Could not resolve App", "NOT_FOUND"⟩] : List GqlError).length = 1 ∧
      readNotFoundCheck [⟨"Could not resolve App", "NOT_FOUND"⟩] = none :=
  ⟨rfl, c10_read_notfound_index_oob [⟨"Could not resolve App", "NOT_FOUND"⟩] rfl⟩

/-- C6: the conditional freeze modifier with the secretValueUnchanged
condition.  Whenever a prior state value exists (non-null), the planned value
is unknown, the attribute's own config value is not unknown, and the
correlated input's prior state value is a concrete stored value (state never
holds unknowns), then: if the correlated config value is determined and equals
the correlated prior value the result is pinned to the prior state value; if
the correlated input changed, or is itself undetermined, the planned value is
left as is (undetermined). -/
theorem c6_freeze_correct (req : StringRequest) (planValue : TStr)
    (hprior : req.stateValue.isNull = false)
    (hplan : planValue.isUnknown = true)
    (hconf : req.configValue.isUnknown = false)
    (hcorr : req.corrStateValue.isUnknown = false) :
    (req.corrConfigValue.isUnknown = false → req.corrConfigValue = req.corrStateValue →
      planModifyString secretValueUnchanged req planValue = req.stateValue)
    ∧ (req.corrConfigValue ≠ req.corrStateValue →
      planModifyString secretValueUnchanged req planValue = planValue)
    ∧ (req.corrConfigValue.isUnknown = true →
      planModifyString secretValueUnchanged req planValue = planValue) := by
  refine ⟨fun _ heq => ?_, fun hne => ?_, fun hu => ?_⟩
  · simp [planModifyString, secretValueUnchanged, hprior, hplan, hconf, heq]
  · have hb : (req.corrStateValue == req.corrConfigValue) = false :=
      beq_eq_false_iff_ne.mpr (Ne.symm hne)
    simp [planModifyString, secretValueUnchanged, hprior, hplan, hconf, hb]
  · have hne : req.corrStateValue ≠ req.corrConfigValue := by
      intro he
      rw [he, hu] at hcorr
      cases hcorr
    have hb : (req.corrStateValue == req.corrConfigValue) = false :=
      beq_eq_false_iff_ne.mpr hne
    simp [planModifyString, secretValueUnchanged, hprior, hplan, hconf, hb]

/-- Witness for C6: prior digest "abc", planned value unknown, correlated
input unchanged pins "abc"; correlated input changed leaves unknown. -/
theorem c6_freeze_correct_witness :
    planModifyString secretValueUnchanged
      ⟨TStr.val "abc", TStr.null, TStr.val "s3cret", TStr.val "s3cret"⟩ TStr.unknown =
      TStr.val "abc" ∧
    planModifyString secretValueUnchanged
      ⟨TStr.val "abc", TStr.null, TStr.val "s3cret", TStr.val "other"⟩ TStr.unknown =
      TStr.unknown :=
  ⟨(c6_freeze_correct ⟨TStr.val "abc", TStr.null, TStr.val "s3cret", TStr.val "s3cret"⟩
      TStr.unknown rfl rfl rfl rfl).1 rfl rfl,
   (c6_freeze_correct ⟨TStr.val "abc", TStr.null, TStr.val "s3cret", TStr.val "other"⟩
      TStr.unknown rfl rfl rfl rfl).2.1 (by decide)⟩

/-- C3: the drift detector's case analysis for one managed key.  A key absent
from the remote snapshot is dropped from observed state; a key present with a
digest or created-at differing from the observed record gets its value marked
unknown and digest/timestamp replaced by the snapshot's values; a key present
with both unchanged leaves observed state untouched. -/
theorem c3_drift_cases (d : SMap) (name : String) (snapshot : List ApiSecret)
    (s : appSecret) (hs : sfind d name = some s) :
    (snapshot.find? (fun as => as.name == name) = none →
      updateSecretFromApi d name snapshot = serase d name ∧
      sfind (updateSecretFromApi d name snapshot) name = none)
    ∧ (∀ as, snapshot.find? (fun a => a.name == name) = some as →
        (as.digest ≠ s.digest.valueString ∨ as.createdAt ≠ s.createdAt.valueString) →
        sfind (updateSecretFromApi d name snapshot) name =
          some ⟨TStr.unknown, TStr.val as.digest, TStr.val as.createdAt⟩)
    ∧ (∀ as, snapshot.find? (fun a => a.name == name) = some as →
        as.digest = s.digest.valueString → as.createdAt = s.createdAt.valueString →
        updateSecretFromApi d name snapshot = d) := by
  refine ⟨fun hnone => ?_, fun as hfind hdiff => ?_, fun as hfind hd hc => ?_⟩
  · have he : updateSecretFromApi d name snapshot = serase d name := by
      simp [updateSecretFromApi, hnone]
    exact ⟨he, by rw [he]; exact sfind_serase_self⟩
  · have hcond : (!(as.digest == s.digest.valueString) ||
        !(as.createdAt == s.createdAt.valueString)) = true := by
      rcases hdiff with h | h <;> simp [h]
    have he : updateSecretFromApi d name snapshot =
        sinsert d name ⟨TStr.unknown, TStr.val as.digest, TStr.val as.createdAt⟩ := by
      simp [updateSecretFromApi, hfind, hs, hcond]
    rw [he]
    exact sfind_insert_self
  · have hcond : (!(as.digest == s.digest.valueString) ||
        !(as.createdAt == s.createdAt.valueString)) = false := by
      simp [hd, hc]
    simp [updateSecretFromApi, hfind, hs, hcond]

/-- Witness for C3: remote digest for "TEST" changed d1 to d2 with the name
still present; the observed value becomes unknown and the digest becomes d2. -/
theorem c3_drift_cases_witness :
    sfind (updateSecretFromApi
      [("TEST", ⟨TStr.val "v", TStr.val "d1", TStr.val "t1"⟩)] "TEST"
      [⟨"TEST", "d2", "t1"⟩]) "TEST" =
      some ⟨TStr.unknown, TStr.val "d2", TStr.val "t1"⟩ :=
  (c3_drift_cases [("TEST", ⟨TStr.val "v", TStr.val "d1", TStr.val "t1"⟩)] "TEST"
    [⟨"TEST", "d2", "t1"⟩] ⟨TStr.val "v", TStr.val "d1", TStr.val "t1"⟩ rfl).2.1
    ⟨"TEST", "d2", "t1"⟩ rfl (Or.inl (by decide))

/-- C2: the Differ partition.  toAdd and toRemove are disjoint; toAdd and
toChange keys are drawn from the plan's keys; toRemove keys are observed keys
absent from the plan; toAdd together with the common keys and toRemove spans
exactly the union of the two key sets; and the key set of the code's combined
newSecrets batch is exactly toAdd together with toChange. -/
theorem c2_differ_partition (plan st : SMap) (k : String) :
    (¬(k ∈ toAdd plan st ∧ k ∈ toRemove plan st))
    ∧ (k ∈ toAdd plan st ∨ k ∈ toChange plan st → scontains plan k = true)
    ∧ (k ∈ toRemove plan st → scontains st k = true ∧ scontains plan k = false)
    ∧ ((k ∈ toAdd plan st ∨ (scontains plan k = true ∧ scontains st k = true)
          ∨ k ∈ toRemove plan st)
        ↔ (scontains plan k = true ∨ scontains st k = true))
    ∧ (k ∈ (newSecrets plan st).map (fun p => p.1)
        ↔ (k ∈ toAdd plan st ∨ k ∈ toChange plan st)) := by
  refine ⟨?_, ?_, ?_, ?_, mem_newSecrets_keys_iff plan st k⟩
  · rintro ⟨ha, hr⟩
    rw [mem_toAdd_iff] at ha
    rw [mem_toRemove_iff] at hr
    rw [ha.2] at hr
    cases hr.1
  · rintro (h | h)
    · exact ((mem_toAdd_iff plan st k).mp h).1
    · obtain ⟨p, hmem, rfl, _, _, _⟩ := (mem_toChange_iff plan st k).mp h
      exact (mem_keys_iff plan p.1).mp (List.mem_map_of_mem _ hmem)
  · exact (mem_toRemove_iff plan st k).mp
  · rw [mem_toAdd_iff, mem_toRemove_iff]
    cases hp : scontains plan k <;> cases ho : scontains st k <;> simp

/-- C9: the set-response frame.  On a successful set batch the reconciler
matches returned secrets to requested ones by name (characterised through
`find?` under name-uniqueness, hence independent of response order and of
extra unrequested entries), writes fresh digest and created-at for exactly the
requested names appearing in the response, keeps the user-supplied value of
every requested secret, and leaves keys outside the requested set absent. -/
theorem c9_set_response_frame (secrets : SMap) (r : Remote) (resp : List ApiSecret)
    (k : String) (hok : r.setResult = Except.ok resp)
    (hnd : (resp.map (fun as => as.name)).Nodup) :
    (scontains secrets k = false → sfind ((setSecrets secrets r).1) k = none)
    ∧ (∀ old as, sfind secrets k = some old → resp.find? (fun a => a.name == k) = some as →
        sfind ((setSecrets secrets r).1) k =
          some ⟨old.value, TStr.val as.digest, TStr.val as.createdAt⟩)
    ∧ (∀ old, sfind secrets k = some old → resp.find? (fun a => a.name == k) = none →
        sfind ((setSecrets secrets r).1) k = some old) := by
  have hres : (setSecrets secrets r).1 = applyDigests secrets resp := by
    simp [setSecrets, hok]
  refine ⟨fun hnc => ?_, fun old as hold hfind => ?_, fun old hold hfind => ?_⟩
  · rw [hres]
    exact applyDigests_none (scontains_false_iff.mp hnc)
  · rw [hres, applyDigests_find_nodup hnd]
    simp [hfind, hold]
  · rw [hres, applyDigests_find_nodup hnd]
    simp [hfind, hold]

/-- Witness for C9: requested "A", response lists an extra entry "B" first and
"A" second; "A" gets the fresh digest with its value kept. -/
theorem c9_set_response_frame_witness :
    sfind ((setSecrets [("A", ⟨TStr.val "1", TStr.unknown, TStr.unknown⟩)]
      ⟨Except.ok (), Except.ok [⟨"B", "x", "y"⟩, ⟨"A", "d2", "t2"⟩], Except.ok []⟩).1) "A" =
      some ⟨TStr.val "1", TStr.val "d2", TStr.val "t2"⟩ :=
  (c9_set_response_frame [("A", ⟨TStr.val "1", TStr.unknown, TStr.unknown⟩)]
    ⟨Except.ok (), Except.ok [⟨"B", "x", "y"⟩, ⟨"A", "d2", "t2"⟩], Except.ok []⟩
    [⟨"B", "x", "y"⟩, ⟨"A", "d2", "t2"⟩] "A" rfl (by decide)).2.1
    ⟨TStr.val "1", TStr.unknown, TStr.unknown⟩ ⟨"A", "d2", "t2"⟩ rfl (by decide)

/-- C4: RemoteNoOp handling in setSecrets.  If the set batch fails with
exactly one remote error whose message contains "No change detected" and the
compensating fetch succeeds, then no error is recorded, the drift warning is
emitted, a GetSecrets call is issued, values of requested secrets are
unchanged, and digest/created-at are populated from the fetch for requested
names present in it.  Any other set-batch error records a fatal diagnostic,
issues no compensating fetch, and leaves the requested map untouched. -/
theorem c4_remote_noop (secrets : SMap) (r : Remote) (e : RemoteErr)
    (hset : r.setResult = Except.error e) :
    (isNoopErr e = true → ∀ fetched, r.getResult = Except.ok fetched →
      (hasError (setSecrets secrets r).2 = false
       ∧ Ev.diag (Diag.warn "State may have drifted") ∈ (setSecrets secrets r).2
       ∧ Ev.call MutCall.get ∈ (setSecrets secrets r).2
       ∧ (∀ k old, sfind secrets k = some old →
           ∃ v, sfind ((setSecrets secrets r).1) k = some v ∧ v.value = old.value)
       ∧ ((fetched.map (fun as => as.name)).Nodup → ∀ as ∈ fetched,
           ∀ old, sfind secrets as.name = some old →
           sfind ((setSecrets secrets r).1) as.name =
             some ⟨old.value, TStr.val as.digest, TStr.val as.createdAt⟩)))
    ∧ (isNoopErr e = false →
        (Ev.diag (Diag.err "SetSecrets errored") ∈ (setSecrets secrets r).2
         ∧ Ev.call MutCall.get ∉ (setSecrets secrets r).2
         ∧ (setSecrets secrets r).1 = secrets)) := by
  constructor
  · intro hnoop fetched hget
    have hpair : setSecrets secrets r =
        (applyDigests secrets fetched,
          Ev.call (MutCall.set (setInputs secrets)) ::
            Ev.diag (Diag.warn "SetSecrets was no-op") ::
            Ev.diag (Diag.warn "State may have drifted") :: [Ev.call MutCall.get]) := by
      simp [setSecrets, hset, hnoop, getSecretComputedValues, hget]
    rw [hpair]
    refine ⟨rfl, by simp, by simp, ?_, ?_⟩
    · intro k old hold
      exact applyDigests_value hold
    · intro hnd as hmem old hold
      have hfind := find?_name_of_mem_nodup fetched as hnd hmem
      show sfind (applyDigests secrets fetched) as.name = _
      rw [applyDigests_find_nodup hnd]
      simp [hfind, hold]
  · intro hnotnoop
    have hpair : setSecrets secrets r =
        (secrets,
          [Ev.call (MutCall.set (setInputs secrets)), Ev.diag (Diag.err "SetSecrets errored")]) := by
      simp [setSecrets, hset, hnotnoop]
    rw [hpair]
    exact ⟨by simp, by simp, rfl⟩

/-- Witness for C4: a one-element error list containing "No change detected"
with a successful compensating fetch records no error and emits the drift
warning. -/
theorem c4_remote_noop_witness :
    hasError (setSecrets [("A", ⟨TStr.val "1", TStr.unknown, TStr.unknown⟩)]
      ⟨Except.ok (), Except.error (RemoteErr.gql [⟨"fly: No change detected", "X"⟩]),
        Except.ok [⟨"A", "dA", "tA"⟩]⟩).2 = false
    ∧ Ev.diag (Diag.warn "State may have drifted") ∈
        (setSecrets [("A", ⟨TStr.val "1", TStr.unknown, TStr.unknown⟩)]
          ⟨Except.ok (), Except.error (RemoteErr.gql [⟨"fly: No change detected", "X"⟩]),
            Except.ok [⟨"A", "dA", "tA"⟩]⟩).2 := by
  have h := (c4_remote_noop [("A", ⟨TStr.val "1", TStr.unknown, TStr.unknown⟩)]
    ⟨Except.ok (), Except.error (RemoteErr.gql [⟨"fly: No change detected", "X"⟩]),
      Except.ok [⟨"A", "dA", "tA"⟩]⟩
    (RemoteErr.gql [⟨"fly: No change detected", "X"⟩]) rfl).1 (by decide)
    [⟨"A", "dA", "tA"⟩] rfl
  exact ⟨h.1, h.2.1⟩

theorem updateData_secrets (plan state : AppData) (r : Remote) :
    (updateData plan state r).secrets =
      if updateAborted plan state r then keptSecrets plan state
      else if (newSecrets plan.secrets (keptSecrets plan state)).isEmpty then
        keptSecrets plan state
      else ((setSecrets (newSecrets plan.secrets (keptSecrets plan state)) r).1).foldl
        (fun m p => sinsert m p.1 p.2) (keptSecrets plan state) := by
  rw [updateData]
  by_cases ha : updateAborted plan state r = true
  · simp [ha]
  · by_cases hne : (newSecrets plan.secrets (keptSecrets plan state)).isEmpty = true <;>
      simp [ha, hne]

/-- C1: unmanaged passthrough.  A key absent from the plan and untracked in
observed state (present, if anywhere, only in the remote store) is never in
any unset batch or set batch issued by Update, is absent from the resulting
observed state, and applying a set response never creates digest/timestamp
for a key outside the requested set. -/
theorem c1_unmanaged_passthrough (plan state : AppData) (r : Remote) (k : String)
    (hp : scontains plan.secrets k = false) (ho : scontains state.secrets k = false) :
    (∀ ks, Ev.call (MutCall.unset ks) ∈ (update plan state r).2 → k ∉ ks)
    ∧ (∀ ins, Ev.call (MutCall.set ins) ∈ (update plan state r).2 →
        k ∉ ins.map (fun q => q.1))
    ∧ sfind ((update plan state r).1).secrets k = none
    ∧ (∀ req : SMap, ∀ q : Remote, scontains req k = false →
        sfind ((setSecrets req q).1) k = none) := by
  have hguard : ∀ c : MutCall, Ev.call c ∉ guardDiags plan state := by
    intro c hc
    have := guardDiags_no_call plan state _ hc
    simp [Ev.isCall] at this
  have hns : sfind (newSecrets plan.secrets (keptSecrets plan state)) k = none :=
    sfind_filter_none (scontains_false_iff.mp hp)
  have hkept : sfind (keptSecrets plan state) k = none :=
    sfind_filter_none (scontains_false_iff.mp ho)
  refine ⟨?_, ?_, ?_, ?_⟩
  · intro ks hmem hk
    rw [update_trace_eq] at hmem
    rcases List.mem_append.mp hmem with hmem | hmem
    · rcases List.mem_append.mp hmem with hmem | hmem
      · exact hguard _ hmem
      · have hks := unsetEvs_unset_batch plan state r ks hmem
        subst hks
        have hcs := ((mem_toRemove_iff plan.secrets state.secrets k).mp hk).1
        rw [ho] at hcs
        cases hcs
    · by_cases ha : updateAborted plan state r = true
      · rw [if_pos ha] at hmem; cases hmem
      · rw [if_neg ha] at hmem
        by_cases hne : (newSecrets plan.secrets (keptSecrets plan state)).isEmpty = true
        · rw [if_pos hne] at hmem; cases hmem
        · rw [if_neg hne] at hmem
          exact setSecrets_no_unset _ r ks hmem
  · intro ins hmem hk
    rw [update_trace_eq] at hmem
    rcases List.mem_append.mp hmem with hmem | hmem
    · rcases List.mem_append.mp hmem with hmem | hmem
      · exact hguard _ hmem
      · exact unsetEvs_no_set plan state r ins hmem
    · by_cases ha : updateAborted plan state r = true
      · rw [if_pos ha] at hmem; cases hmem
      · rw [if_neg ha] at hmem
        by_cases hne : (newSecrets plan.secrets (keptSecrets plan state)).isEmpty = true
        · rw [if_pos hne] at hmem; cases hmem
        · rw [if_neg hne] at hmem
          have hins := setSecrets_set_inputs _ r ins hmem
          subst hins
          rw [setInputs_keys] at hk
          rw [newSecrets] at hk
          have := keys_filter_subset plan.secrets _ k hk
          rw [hp] at this
          cases this
  · show sfind (updateData plan state r).secrets k = none
    rw [updateData_secrets]
    by_cases ha : updateAborted plan state r = true
    · rw [if_pos ha]; exact hkept
    · rw [if_neg ha]
      by_cases hne : (newSecrets plan.secrets (keptSecrets plan state)).isEmpty = true
      · rw [if_pos hne]; exact hkept
      · rw [if_neg hne]
        have habs : sfind ((setSecrets (newSecrets plan.secrets (keptSecrets plan state)) r).1)
            k = none := setSecrets_absent _ r k hns
        exact sfind_foldl_insert_none (sfind_eq_none_iff.mp habs) hkept
  · intro req q hrc
    exact setSecrets_absent req q k (scontains_false_iff.mp hrc)

/-- Witness for C1: key "Z" is in neither plan nor observed state; after an
Update that unsets "B" and sets "A", the resulting state still has no "Z". -/
theorem c1_unmanaged_passthrough_witness :
    sfind ((update ⟨TStr.val "app", TStr.val "o", [("A", ⟨TStr.val "1", TStr.unknown, TStr.unknown⟩)]⟩
      ⟨TStr.val "app", TStr.val "o", [("B", ⟨TStr.val "2", TStr.val "d", TStr.val "t"⟩)]⟩
      ⟨Except.ok (), Except.ok [⟨"A", "dA", "tA"⟩], Except.ok []⟩).1).secrets "Z" = none :=
  (c1_unmanaged_passthrough
    ⟨TStr.val "app", TStr.val "o", [("A", ⟨TStr.val "1", TStr.unknown, TStr.unknown⟩)]⟩
    ⟨TStr.val "app", TStr.val "o", [("B", ⟨TStr.val "2", TStr.val "d", TStr.val "t"⟩)]⟩
    ⟨Except.ok (), Except.ok [⟨"A", "dA", "tA"⟩], Except.ok []⟩ "Z" rfl rfl).2.2.1

/-- C5: idempotence.  When the plan declares exactly the keys tracked in
observed state and every declared value equals the tracked last-declared
value, Update issues no remote mutation call at all (its whole event trace
holds no call events, so neither SetSecrets nor UnsetSecrets is invoked). -/
theorem c5_idempotence (plan state : AppData) (r : Remote)
    (hnp : (plan.secrets.map (fun p => p.1)).Nodup)
    (hkeys : ∀ k, scontains plan.secrets k = scontains state.secrets k)
    (hvals : ∀ k dv ov, sfind plan.secrets k = some dv → sfind state.secrets k = some ov →
      dv.value = ov.value) :
    ∀ e ∈ (update plan state r).2, Ev.isCall e = false := by
  have hrem : removedKeys plan state = [] := by
    rw [removedKeys, toRemove]
    have hfil : state.secrets.filter (fun p => !scontains plan.secrets p.1) = [] := by
      rw [List.filter_eq_nil_iff]
      intro p hp
      have hc : scontains state.secrets p.1 = true :=
        (mem_keys_iff state.secrets p.1).mp (List.mem_map_of_mem _ hp)
      simp [hkeys p.1, hc]
    rw [hfil]
    rfl
  have hkept : keptSecrets plan state = state.secrets := by
    rw [keptSecrets, List.filter_eq_self]
    intro p hp
    have hc : scontains state.secrets p.1 = true :=
      (mem_keys_iff state.secrets p.1).mp (List.mem_map_of_mem _ hp)
    rw [hkeys p.1]
    exact hc
  have hnew : newSecrets plan.secrets (keptSecrets plan state) = [] := by
    rw [hkept, newSecrets, List.filter_eq_nil_iff]
    intro p hp
    have hcp : scontains plan.secrets p.1 = true :=
      (mem_keys_iff plan.secrets p.1).mp (List.mem_map_of_mem _ hp)
    have hcs : scontains state.secrets p.1 = true := by rw [← hkeys p.1]; exact hcp
    obtain ⟨ov, hov⟩ := scontains_true_iff.mp hcs
    have hdv : sfind plan.secrets p.1 = some p.2 := sfind_of_mem_nodup hnp hp
    have hveq : p.2.value = ov.value := hvals p.1 p.2 ov hdv hov
    simp [hov, hveq]
  have huns : unsetEvs plan state r = [] := by
    rw [unsetEvs, hrem]
    simp
  have hab : updateAborted plan state r = false := by
    rw [updateAborted, hrem]
    simp
  intro e he
  rw [update_trace_eq] at he
  simp only [hab, huns, hnew] at he
  simp at he
  exact guardDiags_no_call plan state e he

/-- Witness for C5: plan and state tracking the same single secret with equal
declared values; the Update trace contains no call event at all. -/
theorem c5_idempotence_witness :
    ((update
      ⟨TStr.val "app", TStr.val "o", [("A", ⟨TStr.val "1", TStr.val "d1", TStr.val "t1"⟩)]⟩
      ⟨TStr.val "app", TStr.val "o", [("A", ⟨TStr.val "1", TStr.val "d1", TStr.val "t1"⟩)]⟩
      ⟨Except.ok (), Except.ok [], Except.ok []⟩).2.any Ev.isCall) = false := by
  have h := c5_idempotence
    ⟨TStr.val "app", TStr.val "o", [("A", ⟨TStr.val "1", TStr.val "d1", TStr.val "t1"⟩)]⟩
    ⟨TStr.val "app", TStr.val "o", [("A", ⟨TStr.val "1", TStr.val "d1", TStr.val "t1"⟩)]⟩
    ⟨Except.ok (), Except.ok [], Except.ok []⟩ (by decide)
    (fun k => rfl)
    (fun k dv ov h1 h2 => by rw [h1] at h2; cases h2; rfl)
  rw [List.any_eq_false]
  exact fun e he => by simp [h e he]

/-- C7 counterexample: an Update whose plan changes the org (prior "oldorg",
planned "neworg") records the fatal immutability error, yet still issues the
UnsetSecrets remote call for the removed key "K" — refuting the claim that no
SetSecrets or UnsetSecrets call is made in such an Update. -/
theorem c7_immutable_guard_counterexample :
    hasError (update ⟨TStr.val "app", TStr.val "neworg", []⟩
      ⟨TStr.val "app", TStr.val "oldorg", [("K", ⟨TStr.val "v", TStr.val "d", TStr.val "t"⟩)]⟩
      ⟨Except.ok (), Except.ok [], Except.ok []⟩).2 = true
    ∧ Ev.call (MutCall.unset ["K"]) ∈ (update ⟨TStr.val "app", TStr.val "neworg", []⟩
      ⟨TStr.val "app", TStr.val "oldorg", [("K", ⟨TStr.val "v", TStr.val "d", TStr.val "t"⟩)]⟩
      ⟨Except.ok (), Except.ok [], Except.ok []⟩).2 := by
  decide

/-- C7 amended: an Update whose plan changes the org or name attribute does
record a fatal user-visible error, and that error is recorded before any
remote call (the trace is the guard diagnostics — which contain an error and
no call — followed by everything else); however Update does not stop there,
and mutation calls may still be issued afterwards in the same Update (see the
counterexample), aborting only at the next diagnostics check. -/
theorem c7_immutable_guard_amended (plan state : AppData) (r : Remote)
    (h : orgChanged plan state = true ∨ nameChanged plan state = true) :
    hasError (update plan state r).2 = true
    ∧ (update plan state r).2 = guardDiags plan state ++ restEvents plan state r
    ∧ (∃ e ∈ guardDiags plan state, Ev.isErr e = true)
    ∧ (∀ e ∈ guardDiags plan state, Ev.isCall e = false) := by
  have hex : ∃ e ∈ guardDiags plan state, Ev.isErr e = true := by
    rw [guardDiags]
    rcases h with h | h
    · exact ⟨Ev.diag (Diag.err "Cannot mutate org of existing app"), by simp [h], rfl⟩
    · exact ⟨Ev.diag (Diag.err "Cannot mutate Name of existing app"), by simp [h], rfl⟩
  refine ⟨?_, rfl, hex, guardDiags_no_call plan state⟩
  obtain ⟨e, hmem, herr⟩ := hex
  show hasError (guardDiags plan state ++ restEvents plan state r) = true
  rw [hasError, List.any_eq_true]
  exact ⟨e, List.mem_append_left _ hmem, herr⟩

/-- Witness for the amended C7 at a name change: error recorded, guard
diagnostics lead the trace, they contain an error and no call. -/
theorem c7_immutable_guard_amended_witness :
    hasError (update ⟨TStr.val "new", TStr.unknown, []⟩ ⟨TStr.val "old", TStr.unknown, []⟩
      ⟨Except.ok (), Except.ok [], Except.ok []⟩).2 = true
    ∧ (update ⟨TStr.val "new", TStr.unknown, []⟩ ⟨TStr.val "old", TStr.unknown, []⟩
        ⟨Except.ok (), Except.ok [], Except.ok []⟩).2 =
      guardDiags ⟨TStr.val "new", TStr.unknown, []⟩ ⟨TStr.val "old", TStr.unknown, []⟩ ++
        restEvents ⟨TStr.val "new", TStr.unknown, []⟩ ⟨TStr.val "old", TStr.unknown, []⟩
          ⟨Except.ok (), Except.ok [], Except.ok []⟩
    ∧ (∃ e ∈ guardDiags ⟨TStr.val "new", TStr.unknown, []⟩ ⟨TStr.val "old", TStr.unknown, []⟩,
        Ev.isErr e = true)
    ∧ (∀ e ∈ guardDiags ⟨TStr.val "new", TStr.unknown, []⟩ ⟨TStr.val "old", TStr.unknown, []⟩,
        Ev.isCall e = false) :=
  c7_immutable_guard_amended ⟨TStr.val "new", TStr.unknown, []⟩
    ⟨TStr.val "old", TStr.unknown, []⟩ ⟨Except.ok (), Except.ok [], Except.ok []⟩
    (Or.inr (by decide))

/-- C8: removal before addition, one batch per direction.  The sequence of
mutation batches of any Update trace is exactly an optional single unset
batch carrying all removed keys, followed by an optional single set batch
carrying all added/changed entries; in particular whenever both are issued
the unset batch strictly precedes the set batch, and neither direction is
ever split into per-key calls. -/
theorem c8_removal_before_addition (plan state : AppData) (r : Remote) :
    mutCalls (update plan state r).2 =
      (if (removedKeys plan state).isEmpty then []
       else [MutCall.unset (removedKeys plan state)]) ++
      (if updateAborted plan state r then []
       else if (newSecrets plan.secrets (keptSecrets plan state)).isEmpty then []
       else [MutCall.set (setInputs (newSecrets plan.secrets (keptSecrets plan state)))]) := by
  rw [update_trace_eq, mutCalls, List.filterMap_append, List.filterMap_append]
  have hg := guardDiags_mutCalls plan state
  have hu := unsetEvs_mutCalls plan state r
  rw [mutCalls] at hg hu
  rw [hg, hu]
  simp only [List.nil_append]
  by_cases ha : updateAborted plan state r = true
  · simp [ha, mutCalls]
  · by_cases hne : (newSecrets plan.secrets (keptSecrets plan state)).isEmpty = true
    · simp [ha, hne, mutCalls]
    · have hs := setSecrets_mutCalls (newSecrets plan.secrets (keptSecrets plan state)) r
      rw [mutCalls] at hs
      simp [ha, hne, hs]

/-- Witness for C2: with plan declaring "A" and empty observed state, "A"
falls into the span partition (through toAdd). -/
theorem c2_differ_partition_witness :
    "A" ∈ toAdd [("A", ⟨TStr.val "1", TStr.unknown, TStr.unknown⟩)] ([] : SMap) ∨
      (scontains [("A", ⟨TStr.val "1", TStr.unknown, TStr.unknown⟩)] "A" = true ∧
        scontains ([] : SMap) "A" = true) ∨
      "A" ∈ toRemove [("A", ⟨TStr.val "1", TStr.unknown, TStr.unknown⟩)] ([] : SMap) :=
  (c2_differ_partition [("A", ⟨TStr.val "1", TStr.unknown, TStr.unknown⟩)] ([] : SMap)
    "A").2.2.2.1.mpr (Or.inl rfl)

/-- Witness for C8: an Update removing "B" and adding "A" issues exactly the
unset batch for "B" followed by the set batch for "A". -/
theorem c8_removal_before_addition_witness :
    mutCalls (update
      ⟨TStr.val "app", TStr.val "o", [("A", ⟨TStr.val "1", TStr.unknown, TStr.unknown⟩)]⟩
      ⟨TStr.val "app", TStr.val "o", [("B", ⟨TStr.val "2", TStr.val "d", TStr.val "t"⟩)]⟩
      ⟨Except.ok (), Except.ok [⟨"A", "dA", "tA"⟩], Except.ok []⟩).2 =
      [MutCall.unset ["B"], MutCall.set [("A", "1")]] :=
  (c8_removal_before_addition
    ⟨TStr.val "app", TStr.val "o", [("A", ⟨TStr.val "1", TStr.unknown, TStr.unknown⟩)]⟩
    ⟨TStr.val "app", TStr.val "o", [("B", ⟨TStr.val "2", TStr.val "d", TStr.val "t"⟩)]⟩
    ⟨Except.ok (), Except.ok [⟨"A", "dA", "tA"⟩], Except.ok []⟩).trans (by decide)

end Fly
